import Mathlib

/-!
# Phaser.Touch: touch event normaliser

A shallow embedding of `wip/TS Source/input/Touch.js`.

* JavaScript objects that are only compared by identity (the game, user
  callback functions, the callback context, raw events, the arrow functions
  made by `start`) carry a numeric reference.
* What a handler does to the outside world is recorded as a list of `Effect`s,
  in program order: user callback invocations, reads of the two gate flags,
  `event.preventDefault()` and the three calls on `game.input`.
* User callbacks, `preventDefault` and the `game.input` operations are code
  outside this file.  Each call is recorded and assumed to return normally;
  the fields a handler reads after its callback returned (`disabled`,
  `game.input.disabled`, `event.changedTouches`) have the values held by the
  state and the event passed to the handler.
* The host listener registry follows the DOM standard: `addEventListener`
  ignores a null callback and an already present (type, callback, capture)
  triple, `removeEventListener` ignores a null callback and removes the
  matching entry; `undefined` passed as callback converts to null.
-/

namespace Phaser

/-- Identity of a JavaScript object. -/
abbrev Ref := Nat

/-- One entry of `event.changedTouches`; forwarded verbatim, never inspected. -/
abbrev TouchPoint := Nat

/-- Raw touch event: its identity and its `changedTouches` list. -/
structure Event where
  ref : Ref
  changedTouches : List TouchPoint
  deriving DecidableEq, Repr

/-- Observable actions of the handlers, in the order the code performs them. -/
inductive Effect where
  /-- The call `fn.call(thisArg, event)` of a user callback. -/
  | call (fn : Ref) (thisArg : Ref) (event : Event)
  /-- A read of `this.game.input.disabled`. -/
  | readInputDisabled
  /-- A read of `this.disabled`. -/
  | readDisabled
  /-- The call `event.preventDefault()`. -/
  | preventDefault (event : Event)
  /-- The call `this.game.input.startPointer(touch)`. -/
  | startPointer (touch : TouchPoint)
  /-- The call `this.game.input.updatePointer(touch)`. -/
  | updatePointer (touch : TouchPoint)
  /-- The call `this.game.input.stopPointer(touch)`. -/
  | stopPointer (touch : TouchPoint)
  deriving DecidableEq, Repr

/-- The parts of the game object that `Touch` reads. -/
structure Game where
  ref : Ref
  /-- Value of `game.device.touch`. -/
  deviceTouch : Bool
  /-- Value of `game.input.disabled`. -/
  inputDisabled : Bool
  deriving DecidableEq, Repr

/-- The seven methods that the arrow functions of `start` forward to. -/
inductive Method where
  | onTouchStart | onTouchMove | onTouchEnd | onTouchEnter | onTouchLeave
  | onTouchCancel | consumeTouchMove
  deriving DecidableEq, Repr

/-- An arrow function `function (event) { return _this.m(event); }` created by
`start`: a fresh function object (`ident`) closing over `_this` (`self`). -/
structure Closure where
  ident : Nat
  self : Ref
  method : Method
  deriving DecidableEq, Repr

/-- Fields of a `Touch` instance; `ref` is the identity of the instance. The
seven handle fields are `undefined` (`none`) until `start` assigns them. -/
structure Touch where
  ref : Ref
  game : Game
  disabled : Bool
  touchStartCallback : Option Ref
  touchMoveCallback : Option Ref
  touchEndCallback : Option Ref
  touchEnterCallback : Option Ref
  touchLeaveCallback : Option Ref
  touchCancelCallback : Option Ref
  callbackContext : Ref
  _onTouchStart : Option Closure
  _onTouchMove : Option Closure
  _onTouchEnd : Option Closure
  _onTouchEnter : Option Closure
  _onTouchLeave : Option Closure
  _onTouchCancel : Option Closure
  _documentTouchMove : Option Closure
  deriving DecidableEq, Repr

/-- Constructor `function Touch(game)`; `ref` is the identity given to the new
object. -/
def Touch.new (ref : Ref) (game : Game) : Touch where
  ref := ref
  game := game
  disabled := false
  touchStartCallback := none
  touchMoveCallback := none
  touchEndCallback := none
  touchEnterCallback := none
  touchLeaveCallback := none
  touchCancelCallback := none
  callbackContext := game.ref
  _onTouchStart := none
  _onTouchMove := none
  _onTouchEnd := none
  _onTouchEnter := none
  _onTouchLeave := none
  _onTouchCancel := none
  _documentTouchMove := none

/-- The statement `if (cb) { cb.call(this.callbackContext, event); }`. -/
def invokeCallback (cb : Option Ref) (context : Ref) (event : Event) : List Effect :=
  match cb with
  | some fn => [Effect.call fn context event]
  | none => []

/-- Value of `this.game.input.disabled || this.disabled`. -/
def Touch.gate (self : Touch) : Bool :=
  self.game.inputDisabled || self.disabled

/-- Reads made while evaluating `this.game.input.disabled || this.disabled`:
the right operand is read only when the left one is false. -/
def Touch.readGate (self : Touch) : List Effect :=
  Effect.readInputDisabled :: (if self.game.inputDisabled then [] else [Effect.readDisabled])

/-- The loop `for (var i = 0; i < changedTouches.length; i++) body(changedTouches[i])`
entered with the counter at `i`. -/
def forChangedTouches (changedTouches : List TouchPoint) (body : TouchPoint → List Effect)
    (i : Nat) : List Effect :=
  if h : i < changedTouches.length then
    body (changedTouches.get ⟨i, h⟩) ++ forChangedTouches changedTouches body (i + 1)
  else []
termination_by changedTouches.length - i

/-- Method `consumeTouchMove`. -/
def Touch.consumeTouchMove (_self : Touch) (event : Event) : List Effect :=
  [Effect.preventDefault event]

/-- Method `onTouchStart`. -/
def Touch.onTouchStart (self : Touch) (event : Event) : List Effect :=
  invokeCallback self.touchStartCallback self.callbackContext event ++
    (self.readGate ++
      if self.gate then []
      else Effect.preventDefault event ::
        forChangedTouches event.changedTouches (fun t => [Effect.startPointer t]) 0)

/-- Method `onTouchCancel`. -/
def Touch.onTouchCancel (self : Touch) (event : Event) : List Effect :=
  invokeCallback self.touchCancelCallback self.callbackContext event ++
    (self.readGate ++
      if self.gate then []
      else Effect.preventDefault event ::
        forChangedTouches event.changedTouches (fun t => [Effect.stopPointer t]) 0)

/-- Method `onTouchEnter`; the loop body is empty. -/
def Touch.onTouchEnter (self : Touch) (event : Event) : List Effect :=
  invokeCallback self.touchEnterCallback self.callbackContext event ++
    (self.readGate ++
      if self.gate then []
      else Effect.preventDefault event ::
        forChangedTouches event.changedTouches (fun _ => []) 0)

/-- Method `onTouchLeave`; no gate check, the loop body is empty. -/
def Touch.onTouchLeave (self : Touch) (event : Event) : List Effect :=
  invokeCallback self.touchLeaveCallback self.callbackContext event ++
    Effect.preventDefault event ::
      forChangedTouches event.changedTouches (fun _ => []) 0

/-- Method `onTouchMove`; no gate check. -/
def Touch.onTouchMove (self : Touch) (event : Event) : List Effect :=
  invokeCallback self.touchMoveCallback self.callbackContext event ++
    Effect.preventDefault event ::
      forChangedTouches event.changedTouches (fun t => [Effect.updatePointer t]) 0

/-- Method `onTouchEnd`; no gate check. -/
def Touch.onTouchEnd (self : Touch) (event : Event) : List Effect :=
  invokeCallback self.touchEndCallback self.callbackContext event ++
    Effect.preventDefault event ::
      forChangedTouches event.changedTouches (fun t => [Effect.stopPointer t]) 0

/-- Run the method named by `m` on the instance. -/
def Touch.invoke (self : Touch) (m : Method) (event : Event) : List Effect :=
  match m with
  | .onTouchStart => self.onTouchStart event
  | .onTouchMove => self.onTouchMove event
  | .onTouchEnd => self.onTouchEnd event
  | .onTouchEnter => self.onTouchEnter event
  | .onTouchLeave => self.onTouchLeave event
  | .onTouchCancel => self.onTouchCancel event
  | .consumeTouchMove => self.consumeTouchMove event

/-- The callback slot read by the method, if it reads one. -/
def Touch.slot (self : Touch) (m : Method) : Option Ref :=
  match m with
  | .onTouchStart => self.touchStartCallback
  | .onTouchMove => self.touchMoveCallback
  | .onTouchEnd => self.touchEndCallback
  | .onTouchEnter => self.touchEnterCallback
  | .onTouchLeave => self.touchLeaveCallback
  | .onTouchCancel => self.touchCancelCallback
  | .consumeTouchMove => none

/-! ## Views of an effect list -/

/-- Calls on the pointer collaborator `game.input`. -/
def Effect.isCollaborator : Effect → Bool
  | .startPointer _ => true
  | .updatePointer _ => true
  | .stopPointer _ => true
  | _ => false

def Effect.isStartPointer : Effect → Bool
  | .startPointer _ => true
  | _ => false

def Effect.isPreventDefault : Effect → Bool
  | .preventDefault _ => true
  | _ => false

def Effect.isCall : Effect → Bool
  | .call _ _ _ => true
  | _ => false

/-- The collaborator calls of an effect list, in order. -/
def collaboratorCalls (es : List Effect) : List Effect := es.filter Effect.isCollaborator

/-- The user callback invocations of an effect list, in order. -/
def callbackCalls (es : List Effect) : List Effect := es.filter Effect.isCall

/-- The `preventDefault` calls of an effect list, in order. -/
def preventDefaultCalls (es : List Effect) : List Effect := es.filter Effect.isPreventDefault

/-- Number of `startPointer` calls in an effect list. -/
def startPointerCount (es : List Effect) : Nat := es.countP Effect.isStartPointer

/-- One native event delivered to a handler: the method run, the state of the
instance (gate flags and callback slots) at that moment, and the event. -/
structure Delivery where
  method : Method
  state : Touch
  event : Event
  deriving DecidableEq, Repr

/-- Effects of a sequence of deliveries, handled one after the other. -/
def handleAll (ds : List Delivery) : List Effect :=
  ds.flatMap (fun d => d.state.invoke d.method d.event)

/-- The same instance with the two gate flags set to `g` (for
`game.input.disabled`) and `d` (for `this.disabled`), nothing else changed. -/
def Touch.withGate (self : Touch) (g d : Bool) : Touch :=
  { self with disabled := d, game := { self.game with inputDisabled := g } }

/-- The invocation `cb.call(context, event)` when the slot holds a function,
nothing when it is null. -/
def callbackEffects (cb : Option Ref) (context : Ref) (event : Event) : List Effect :=
  cb.toList.map (fun fn => Effect.call fn context event)

/-! ## Host listener registry -/

/-- The two event targets used by `start` and `stop`: `game.stage.canvas` and
`document`. -/
inductive EventTarget where
  | canvas | document
  deriving DecidableEq, Repr

/-- The event type strings used: 'touchstart', 'touchmove', 'touchend',
'touchenter', 'touchleave', 'touchcancel'. -/
inductive EventType where
  | touchstart | touchmove | touchend | touchenter | touchleave | touchcancel
  deriving DecidableEq, Repr

/-- One entry of an event listener list of the host. -/
structure EventListener where
  target : EventTarget
  type : EventType
  callback : Closure
  capture : Bool
  deriving DecidableEq, Repr

/-- Host operation `target.addEventListener(type, callback, capture)`. -/
def addEventListener (ls : List EventListener) (target : EventTarget) (type : EventType)
    (callback : Option Closure) (capture : Bool) : List EventListener :=
  match callback with
  | none => ls
  | some c =>
    if EventListener.mk target type c capture ∈ ls then ls
    else ls ++ [EventListener.mk target type c capture]

/-- Host operation `target.removeEventListener(type, callback)`; the omitted
capture argument is false. A listener list holds no entry twice, so dropping
every matching entry drops the matching entry. -/
def removeEventListener (ls : List EventListener) (target : EventTarget) (type : EventType)
    (callback : Option Closure) : List EventListener :=
  match callback with
  | none => ls
  | some c => ls.filter (fun l => decide (l ≠ EventListener.mk target type c false))

/-- The instance together with the host state that `start` and `stop` act on:
the listener lists of canvas and document, and the counter that numbers newly
created function objects. -/
structure World where
  touch : Touch
  listeners : List EventListener
  nextFunction : Nat
  deriving DecidableEq, Repr

/-- Method `start`. -/
def Touch.start (w : World) : World :=
  if w.touch.game.deviceTouch then
    let n := w.nextFunction
    let self := w.touch.ref
    let t : Touch := { w.touch with
      _onTouchStart := some (Closure.mk n self Method.onTouchStart)
      _onTouchMove := some (Closure.mk (n + 1) self Method.onTouchMove)
      _onTouchEnd := some (Closure.mk (n + 2) self Method.onTouchEnd)
      _onTouchEnter := some (Closure.mk (n + 3) self Method.onTouchEnter)
      _onTouchLeave := some (Closure.mk (n + 4) self Method.onTouchLeave)
      _onTouchCancel := some (Closure.mk (n + 5) self Method.onTouchCancel)
      _documentTouchMove := some (Closure.mk (n + 6) self Method.consumeTouchMove) }
    let l0 := w.listeners
    let l1 := addEventListener l0 EventTarget.canvas EventType.touchstart t._onTouchStart false
    let l2 := addEventListener l1 EventTarget.canvas EventType.touchmove t._onTouchMove false
    let l3 := addEventListener l2 EventTarget.canvas EventType.touchend t._onTouchEnd false
    let l4 := addEventListener l3 EventTarget.canvas EventType.touchenter t._onTouchEnter false
    let l5 := addEventListener l4 EventTarget.canvas EventType.touchleave t._onTouchLeave false
    let l6 := addEventListener l5 EventTarget.canvas EventType.touchcancel t._onTouchCancel false
    let l7 := addEventListener l6 EventTarget.document EventType.touchmove t._documentTouchMove false
    { touch := t, listeners := l7, nextFunction := n + 7 }
  else w

/-- Method `stop`. -/
def Touch.stop (w : World) : World :=
  if w.touch.game.deviceTouch then
    let t := w.touch
    let l0 := w.listeners
    let l1 := removeEventListener l0 EventTarget.canvas EventType.touchstart t._onTouchStart
    let l2 := removeEventListener l1 EventTarget.canvas EventType.touchmove t._onTouchMove
    let l3 := removeEventListener l2 EventTarget.canvas EventType.touchend t._onTouchEnd
    let l4 := removeEventListener l3 EventTarget.canvas EventType.touchenter t._onTouchEnter
    let l5 := removeEventListener l4 EventTarget.canvas EventType.touchleave t._onTouchLeave
    let l6 := removeEventListener l5 EventTarget.canvas EventType.touchcancel t._onTouchCancel
    let l7 := removeEventListener l6 EventTarget.document EventType.touchmove t._documentTouchMove
    { w with listeners := l7 }
  else w

/-- The registered listeners whose callback closes over this instance. -/
def ownListeners (w : World) : List EventListener :=
  w.listeners.filter (fun l => decide (l.callback.self = w.touch.ref))

/-- Targets whose listeners an event dispatched at `target` reaches: the target
itself, then its ancestors (the canvas is inside the document). -/
def propagationPath : EventTarget → List EventTarget
  | EventTarget.canvas => [EventTarget.canvas, EventTarget.document]
  | EventTarget.document => [EventTarget.document]

/-- Run one registered arrow function: it calls its method on the instance it
closes over. A function closing over another object is not code of this
instance and adds nothing to the effects recorded for it. -/
def Closure.run (w : World) (c : Closure) (event : Event) : List Effect :=
  if c.self = w.touch.ref then w.touch.invoke c.method event else []

/-- Host dispatch of an event of the given type at `target`: every listener of
that type along the propagation path runs, in registration order. -/
def dispatchEvent (w : World) (target : EventTarget) (type : EventType) (event : Event) :
    List Effect :=
  (propagationPath target).flatMap (fun tg =>
    (w.listeners.filter (fun l => decide (l.target = tg ∧ l.type = type))).flatMap
      (fun l => l.callback.run w event))

/-- A call made on the instance. -/
inductive Op where
  | start | stop
  deriving DecidableEq, Repr

/-- Perform one call. -/
def Op.apply (w : World) : Op → World
  | Op.start => Touch.start w
  | Op.stop => Touch.stop w

/-- Perform a sequence of calls, first to last. -/
def runOps (w : World) : List Op → World
  | [] => w
  | op :: ops => runOps (op.apply w) ops

/-- No `start()` call directly follows another `start()` call. -/
def noDoubleStart : List Op → Bool
  | [] => true
  | op :: ops => !(decide (op = Op.start) && decide (ops.head? = some Op.start)) &&
      noDoubleStart ops

/-- The listener entries that `stop` asks the host to remove, read from the
handle fields. -/
def handleBindings (t : Touch) : List EventListener :=
  [ (EventTarget.canvas, EventType.touchstart, t._onTouchStart),
    (EventTarget.canvas, EventType.touchmove, t._onTouchMove),
    (EventTarget.canvas, EventType.touchend, t._onTouchEnd),
    (EventTarget.canvas, EventType.touchenter, t._onTouchEnter),
    (EventTarget.canvas, EventType.touchleave, t._onTouchLeave),
    (EventTarget.canvas, EventType.touchcancel, t._onTouchCancel),
    (EventTarget.document, EventType.touchmove, t._documentTouchMove) ].filterMap
    (fun x => x.2.2.map (fun c => EventListener.mk x.1 x.2.1 c false))

/-- The seven listener entries that one run of `start` registers when its
function objects are numbered from `n` and close over the instance `self`. -/
def startBindings (n : Nat) (self : Ref) : List EventListener :=
  [ EventListener.mk EventTarget.canvas EventType.touchstart
      (Closure.mk n self Method.onTouchStart) false,
    EventListener.mk EventTarget.canvas EventType.touchmove
      (Closure.mk (n + 1) self Method.onTouchMove) false,
    EventListener.mk EventTarget.canvas EventType.touchend
      (Closure.mk (n + 2) self Method.onTouchEnd) false,
    EventListener.mk EventTarget.canvas EventType.touchenter
      (Closure.mk (n + 3) self Method.onTouchEnter) false,
    EventListener.mk EventTarget.canvas EventType.touchleave
      (Closure.mk (n + 4) self Method.onTouchLeave) false,
    EventListener.mk EventTarget.canvas EventType.touchcancel
      (Closure.mk (n + 5) self Method.onTouchCancel) false,
    EventListener.mk EventTarget.document EventType.touchmove
      (Closure.mk (n + 6) self Method.consumeTouchMove) false ]

/-- The (target, type) pairs on which this instance has a listener registered,
one entry per registered listener. -/
def ownSlots (w : World) : List (EventTarget × EventType) :=
  (ownListeners w).map (fun l => (l.target, l.type))

/-- The registered listeners of this instance are exactly the seven of its
latest `start`, the ones its handle fields point to. -/
def Started (w : World) : Prop :=
  ∃ n, ownListeners w = startBindings n w.touch.ref ∧
    handleBindings w.touch = startBindings n w.touch.ref

/-- A freshly constructed instance in a host with listener list `ls`. -/
def World.fresh (ref : Ref) (game : Game) (ls : List EventListener) (n : Nat) : World where
  touch := Touch.new ref game
  listeners := ls
  nextFunction := n

/-! ## Sample values -/

/-- A game with touch support and input enabled. -/
def sampleGame : Game := Game.mk 0 true false

/-- An event with two changed touches. -/
def sampleEvent : Event := Event.mk 3 [10, 11]

/-- A locally disabled instance with a start and a cancel callback. -/
def sampleDisabledTouch : Touch :=
  { Touch.new 1 sampleGame with
    disabled := true, touchStartCallback := some 7, touchCancelCallback := some 8 }

/-- A listener registered by some other object. -/
def foreignListener : EventListener :=
  EventListener.mk EventTarget.canvas EventType.touchstart
    (Closure.mk 100 9 Method.onTouchStart) false

/-- A fresh instance (identity 1) of `sampleGame` in a host whose canvas
already carries a listener of another object. -/
def sampleWorld : World := World.fresh 1 sampleGame [foreignListener] 0

/-! ## Basic facts about the loop -/

theorem forChangedTouches_drop (ts : List TouchPoint) (body : TouchPoint → List Effect)
    (i : Nat) : forChangedTouches ts body i = (ts.drop i).flatMap body := by
  generalize h : ts.length - i = n
  induction n generalizing i with
  | zero =>
    have hi : ts.length ≤ i := by omega
    rw [forChangedTouches, dif_neg (by omega), List.drop_of_length_le hi]
    rfl
  | succ n ih =>
    have hi : i < ts.length := by omega
    rw [forChangedTouches, dif_pos hi, ih (i + 1) (by omega)]
    rw [List.drop_eq_getElem_cons hi, List.flatMap_cons]
    rfl

theorem forChangedTouches_zero (ts : List TouchPoint) (body : TouchPoint → List Effect) :
    forChangedTouches ts body 0 = ts.flatMap body := by
  rw [forChangedTouches_drop]; rfl

/-! ## Counting and filtering lemmas -/

theorem startPointerCount_append (a b : List Effect) :
    startPointerCount (a ++ b) = startPointerCount a + startPointerCount b := by
  simp [startPointerCount]

theorem startPointerCount_nil : startPointerCount [] = 0 := rfl

theorem startPointerCount_cons (x : Effect) (l : List Effect) :
    startPointerCount (x :: l) = startPointerCount l + (if x.isStartPointer then 1 else 0) := by
  simp [startPointerCount, List.countP_cons]

theorem startPointerCount_invokeCallback (cb : Option Ref) (c : Ref) (e : Event) :
    startPointerCount (invokeCallback cb c e) = 0 := by
  cases cb <;> simp [invokeCallback, startPointerCount, Effect.isStartPointer]

theorem startPointerCount_readGate (t : Touch) : startPointerCount t.readGate = 0 := by
  unfold Touch.readGate
  split <;> simp [startPointerCount, Effect.isStartPointer]

theorem startPointerCount_loop_start (ts : List TouchPoint) :
    startPointerCount (ts.flatMap (fun t => [Effect.startPointer t])) = ts.length := by
  induction ts with
  | nil => rfl
  | cons a l ih =>
    simp only [List.flatMap_cons, startPointerCount_append, ih, List.length_cons]
    simp [startPointerCount, Effect.isStartPointer]
    omega

theorem startPointerCount_loop_update (ts : List TouchPoint) :
    startPointerCount (ts.flatMap (fun t => [Effect.updatePointer t])) = 0 := by
  induction ts with
  | nil => rfl
  | cons a l ih =>
    simp only [List.flatMap_cons, startPointerCount_append, ih]
    simp [startPointerCount, Effect.isStartPointer]

theorem startPointerCount_loop_stop (ts : List TouchPoint) :
    startPointerCount (ts.flatMap (fun t => [Effect.stopPointer t])) = 0 := by
  induction ts with
  | nil => rfl
  | cons a l ih =>
    simp only [List.flatMap_cons, startPointerCount_append, ih]
    simp [startPointerCount, Effect.isStartPointer]

theorem flatMap_nil_body (ts : List TouchPoint) :
    ts.flatMap (fun _ => ([] : List Effect)) = [] := by
  induction ts with
  | nil => rfl
  | cons a l ih => simp [List.flatMap_cons, ih]

theorem startPointerCount_invoke (m : Method) (t : Touch) (e : Event) :
    startPointerCount (t.invoke m e) =
      if m = Method.onTouchStart ∧ t.gate = false then e.changedTouches.length else 0 := by
  cases m <;> cases hg : t.gate <;>
    simp only [Touch.invoke, Touch.onTouchStart, Touch.onTouchMove, Touch.onTouchEnd,
      Touch.onTouchEnter, Touch.onTouchLeave, Touch.onTouchCancel, Touch.consumeTouchMove,
      forChangedTouches_zero, flatMap_nil_body,
      startPointerCount_loop_update, startPointerCount_loop_stop, startPointerCount_loop_start,
      startPointerCount_append, startPointerCount_invokeCallback, startPointerCount_readGate,
      startPointerCount_cons, startPointerCount_nil, Effect.isStartPointer, hg] <;>
    simp [startPointerCount_cons, startPointerCount_nil, startPointerCount_loop_start,
      startPointerCount_loop_stop, Effect.isStartPointer]

theorem invokeCallback_eq (cb : Option Ref) (c : Ref) (e : Event) :
    invokeCallback cb c e = callbackEffects cb c e := by
  cases cb <;> rfl

theorem collaboratorCalls_append (a b : List Effect) :
    collaboratorCalls (a ++ b) = collaboratorCalls a ++ collaboratorCalls b := by
  simp [collaboratorCalls]

theorem callbackCalls_append (a b : List Effect) :
    callbackCalls (a ++ b) = callbackCalls a ++ callbackCalls b := by
  simp [callbackCalls]

theorem preventDefaultCalls_append (a b : List Effect) :
    preventDefaultCalls (a ++ b) = preventDefaultCalls a ++ preventDefaultCalls b := by
  simp [preventDefaultCalls]

theorem collaboratorCalls_callbackEffects (cb : Option Ref) (c : Ref) (e : Event) :
    collaboratorCalls (callbackEffects cb c e) = [] := by
  cases cb <;> simp [callbackEffects, collaboratorCalls, Effect.isCollaborator]

theorem preventDefaultCalls_callbackEffects (cb : Option Ref) (c : Ref) (e : Event) :
    preventDefaultCalls (callbackEffects cb c e) = [] := by
  cases cb <;> simp [callbackEffects, preventDefaultCalls, Effect.isPreventDefault]

theorem callbackCalls_callbackEffects (cb : Option Ref) (c : Ref) (e : Event) :
    callbackCalls (callbackEffects cb c e) = callbackEffects cb c e := by
  cases cb <;> simp [callbackEffects, callbackCalls, Effect.isCall]

theorem collaboratorCalls_readGate (t : Touch) : collaboratorCalls t.readGate = [] := by
  unfold Touch.readGate
  split <;> simp [collaboratorCalls, Effect.isCollaborator]

theorem preventDefaultCalls_readGate (t : Touch) : preventDefaultCalls t.readGate = [] := by
  unfold Touch.readGate
  split <;> simp [preventDefaultCalls, Effect.isPreventDefault]

theorem callbackCalls_readGate (t : Touch) : callbackCalls t.readGate = [] := by
  unfold Touch.readGate
  split <;> simp [callbackCalls, Effect.isCall]

/-- A loop whose body makes one collaborator call per element. -/
theorem loop_views (op : TouchPoint → Effect) (hop : ∀ x, (op x).isCollaborator = true)
    (hpd : ∀ x, (op x).isPreventDefault = false) (hc : ∀ x, (op x).isCall = false)
    (ts : List TouchPoint) :
    collaboratorCalls (ts.flatMap (fun x => [op x])) = ts.map op ∧
      preventDefaultCalls (ts.flatMap (fun x => [op x])) = [] ∧
      callbackCalls (ts.flatMap (fun x => [op x])) = [] := by
  induction ts with
  | nil => exact ⟨rfl, rfl, rfl⟩
  | cons a l ih =>
    obtain ⟨h1, h2, h3⟩ := ih
    simp only [List.flatMap_cons, collaboratorCalls_append, preventDefaultCalls_append,
      callbackCalls_append, h1, h2, h3, List.map_cons]
    simp [collaboratorCalls, preventDefaultCalls, callbackCalls, hop, hpd, hc]

/-! ## Exact effect lists of the handlers -/

theorem flatMap_single (op : TouchPoint → Effect) (ts : List TouchPoint) :
    ts.flatMap (fun x => [op x]) = ts.map op := by
  induction ts with
  | nil => rfl
  | cons a l ih => simp [List.flatMap_cons, ih]

theorem onTouchStart_eq (t : Touch) (e : Event) :
    t.onTouchStart e = callbackEffects t.touchStartCallback t.callbackContext e ++
      (t.readGate ++ if t.gate then []
        else Effect.preventDefault e :: e.changedTouches.map Effect.startPointer) := by
  simp [Touch.onTouchStart, invokeCallback_eq, forChangedTouches_zero, flatMap_single]

theorem onTouchCancel_eq (t : Touch) (e : Event) :
    t.onTouchCancel e = callbackEffects t.touchCancelCallback t.callbackContext e ++
      (t.readGate ++ if t.gate then []
        else Effect.preventDefault e :: e.changedTouches.map Effect.stopPointer) := by
  simp [Touch.onTouchCancel, invokeCallback_eq, forChangedTouches_zero, flatMap_single]

theorem onTouchEnter_eq (t : Touch) (e : Event) :
    t.onTouchEnter e = callbackEffects t.touchEnterCallback t.callbackContext e ++
      (t.readGate ++ if t.gate then [] else [Effect.preventDefault e]) := by
  simp [Touch.onTouchEnter, invokeCallback_eq, forChangedTouches_zero, flatMap_nil_body]

theorem onTouchLeave_eq (t : Touch) (e : Event) :
    t.onTouchLeave e = callbackEffects t.touchLeaveCallback t.callbackContext e ++
      [Effect.preventDefault e] := by
  simp [Touch.onTouchLeave, invokeCallback_eq, forChangedTouches_zero, flatMap_nil_body]

theorem onTouchMove_eq (t : Touch) (e : Event) :
    t.onTouchMove e = callbackEffects t.touchMoveCallback t.callbackContext e ++
      Effect.preventDefault e :: e.changedTouches.map Effect.updatePointer := by
  simp [Touch.onTouchMove, invokeCallback_eq, forChangedTouches_zero, flatMap_single]

theorem onTouchEnd_eq (t : Touch) (e : Event) :
    t.onTouchEnd e = callbackEffects t.touchEndCallback t.callbackContext e ++
      Effect.preventDefault e :: e.changedTouches.map Effect.stopPointer := by
  simp [Touch.onTouchEnd, invokeCallback_eq, forChangedTouches_zero, flatMap_single]

theorem map_views (op : TouchPoint → Effect) (hop : ∀ x, (op x).isCollaborator = true)
    (hpd : ∀ x, (op x).isPreventDefault = false) (hc : ∀ x, (op x).isCall = false)
    (ts : List TouchPoint) :
    collaboratorCalls (ts.map op) = ts.map op ∧ preventDefaultCalls (ts.map op) = [] ∧
      callbackCalls (ts.map op) = [] := by
  have h := loop_views op hop hpd hc ts
  rw [flatMap_single] at h
  exact h

theorem views_cons_preventDefault (e : Event) (l : List Effect) :
    collaboratorCalls (Effect.preventDefault e :: l) = collaboratorCalls l ∧
      preventDefaultCalls (Effect.preventDefault e :: l) =
        Effect.preventDefault e :: preventDefaultCalls l ∧
      callbackCalls (Effect.preventDefault e :: l) = callbackCalls l := by
  simp [collaboratorCalls, preventDefaultCalls, callbackCalls, Effect.isCollaborator,
    Effect.isPreventDefault, Effect.isCall]

/-! ## The claims about the handlers -/

/-- C1: for every finite sequence of deliveries to the handlers, each with its
own state of the gate flags, the number of `startPointer` calls made equals the
sum of `changedTouches.length` over the `onTouchStart` deliveries handled with
the gate false; every other delivery contributes zero. -/
theorem startPointer_count_eq_ungated_start_touches (ds : List Delivery) :
    startPointerCount (handleAll ds) =
      (ds.map (fun d =>
        if d.method = Method.onTouchStart ∧ d.state.gate = false
        then d.event.changedTouches.length else 0)).sum := by
  induction ds with
  | nil => rfl
  | cons d ds ih =>
    have hcons : handleAll (d :: ds) = d.state.invoke d.method d.event ++ handleAll ds := by
      simp [handleAll]
    rw [hcons, startPointerCount_append, ih, startPointerCount_invoke]
    simp

/-- C2: `onTouchMove` calls `updatePointer` once per element of
`changedTouches`, with the elements unchanged and in list order, and makes no
other collaborator call. -/
theorem onTouchMove_updates_each_touch_in_order (t : Touch) (e : Event) :
    collaboratorCalls (t.onTouchMove e) = e.changedTouches.map Effect.updatePointer := by
  rw [onTouchMove_eq, collaboratorCalls_append, collaboratorCalls_callbackEffects,
    (views_cons_preventDefault e _).1,
    (map_views Effect.updatePointer (fun _ => rfl) (fun _ => rfl) (fun _ => rfl) _).1]
  rfl

/-- C3: when `game.input.disabled` or `this.disabled` is true, `onTouchStart`
and `onTouchCancel` make no collaborator call and no `preventDefault` call, and
the callback of the category, if set, is still invoked exactly once with the
event. -/
theorem gated_start_cancel_only_invoke_callback (t : Touch) (e : Event)
    (h : t.game.inputDisabled = true ∨ t.disabled = true) :
    collaboratorCalls (t.onTouchStart e) = [] ∧
      preventDefaultCalls (t.onTouchStart e) = [] ∧
      callbackCalls (t.onTouchStart e) =
        callbackEffects t.touchStartCallback t.callbackContext e ∧
      collaboratorCalls (t.onTouchCancel e) = [] ∧
      preventDefaultCalls (t.onTouchCancel e) = [] ∧
      callbackCalls (t.onTouchCancel e) =
        callbackEffects t.touchCancelCallback t.callbackContext e := by
  have hg : t.gate = true := by
    unfold Touch.gate
    rcases h with h | h <;> simp [h]
  simp [onTouchStart_eq, onTouchCancel_eq, hg, collaboratorCalls_append,
    preventDefaultCalls_append, callbackCalls_append, collaboratorCalls_callbackEffects,
    preventDefaultCalls_callbackEffects, callbackCalls_callbackEffects,
    collaboratorCalls_readGate, preventDefaultCalls_readGate, callbackCalls_readGate]

theorem gated_start_cancel_only_invoke_callback_witness :
    (sampleDisabledTouch.game.inputDisabled = true ∨ sampleDisabledTouch.disabled = true) ∧
      collaboratorCalls (sampleDisabledTouch.onTouchStart sampleEvent) = [] ∧
      preventDefaultCalls (sampleDisabledTouch.onTouchStart sampleEvent) = [] ∧
      callbackCalls (sampleDisabledTouch.onTouchStart sampleEvent) =
        [Effect.call 7 0 sampleEvent] ∧
      collaboratorCalls (sampleDisabledTouch.onTouchCancel sampleEvent) = [] ∧
      preventDefaultCalls (sampleDisabledTouch.onTouchCancel sampleEvent) = [] ∧
      callbackCalls (sampleDisabledTouch.onTouchCancel sampleEvent) =
        [Effect.call 8 0 sampleEvent] :=
  ⟨Or.inr rfl,
    gated_start_cancel_only_invoke_callback sampleDisabledTouch sampleEvent (Or.inr rfl)⟩

/-- C4: `onTouchMove` and `onTouchEnd` produce the same effect list whatever
the two gate flags are; each calls `preventDefault` exactly once and forwards
every element of `changedTouches`, in order, to `updatePointer` (move) or
`stopPointer` (end). -/
theorem move_end_independent_of_gate (t : Touch) (e : Event) (g d : Bool) :
    (t.withGate g d).onTouchMove e = t.onTouchMove e ∧
      (t.withGate g d).onTouchEnd e = t.onTouchEnd e ∧
      preventDefaultCalls (t.onTouchMove e) = [Effect.preventDefault e] ∧
      collaboratorCalls (t.onTouchMove e) = e.changedTouches.map Effect.updatePointer ∧
      preventDefaultCalls (t.onTouchEnd e) = [Effect.preventDefault e] ∧
      collaboratorCalls (t.onTouchEnd e) = e.changedTouches.map Effect.stopPointer := by
  have hu := map_views Effect.updatePointer (fun _ => rfl) (fun _ => rfl) (fun _ => rfl)
    e.changedTouches
  have hs := map_views Effect.stopPointer (fun _ => rfl) (fun _ => rfl) (fun _ => rfl)
    e.changedTouches
  refine ⟨rfl, rfl, ?_, ?_, ?_, ?_⟩
  · rw [onTouchMove_eq, preventDefaultCalls_append, preventDefaultCalls_callbackEffects,
      (views_cons_preventDefault e _).2.1, hu.2.1]
    rfl
  · rw [onTouchMove_eq, collaboratorCalls_append, collaboratorCalls_callbackEffects,
      (views_cons_preventDefault e _).1, hu.1]
    rfl
  · rw [onTouchEnd_eq, preventDefaultCalls_append, preventDefaultCalls_callbackEffects,
      (views_cons_preventDefault e _).2.1, hs.2.1]
    rfl
  · rw [onTouchEnd_eq, collaboratorCalls_append, collaboratorCalls_callbackEffects,
      (views_cons_preventDefault e _).1, hs.1]
    rfl

theorem views_callbackEffects_append (cb : Option Ref) (c : Ref) (e : Event)
    (rest : List Effect) :
    callbackCalls (callbackEffects cb c e ++ rest) =
      callbackEffects cb c e ++ callbackCalls rest := by
  rw [callbackCalls_append, callbackCalls_callbackEffects]

theorem callbackCalls_gated_tail (t : Touch) (e : Event) (l : List Effect)
    (hl : callbackCalls l = []) :
    callbackCalls (t.readGate ++ if t.gate then [] else Effect.preventDefault e :: l) = [] := by
  rw [callbackCalls_append, callbackCalls_readGate]
  split
  · rfl
  · rw [(views_cons_preventDefault e l).2.2, hl]
    rfl

/-- C8: every handler first runs `if (cb) cb.call(this.callbackContext, event)`
on its own callback slot: when the slot is set the call is the first effect of
the handler (before any gate read and before `preventDefault`), it receives the
event and the callback context, and no other callback call follows; when the
slot is null the handler invokes no callback. The constructor sets the callback
context to the game it was given and every slot to null. -/
theorem callback_invoked_once_first (m : Method) (t : Touch) (e : Event) (r : Ref)
    (game : Game) :
    (∃ rest, t.invoke m e = callbackEffects (t.slot m) t.callbackContext e ++ rest ∧
        callbackCalls rest = []) ∧
      callbackCalls (t.invoke m e) = callbackEffects (t.slot m) t.callbackContext e ∧
      (Touch.new r game).callbackContext = game.ref ∧
      (Touch.new r game).slot m = none := by
  have hst := map_views Effect.startPointer (fun _ => rfl) (fun _ => rfl) (fun _ => rfl)
    e.changedTouches
  have hu := map_views Effect.updatePointer (fun _ => rfl) (fun _ => rfl) (fun _ => rfl)
    e.changedTouches
  have hs := map_views Effect.stopPointer (fun _ => rfl) (fun _ => rfl) (fun _ => rfl)
    e.changedTouches
  have key : ∃ rest, t.invoke m e = callbackEffects (t.slot m) t.callbackContext e ++ rest ∧
      callbackCalls rest = [] := by
    cases m
    · exact ⟨_, onTouchStart_eq t e, callbackCalls_gated_tail t e _ hst.2.2⟩
    · refine ⟨_, onTouchMove_eq t e, ?_⟩
      rw [(views_cons_preventDefault e _).2.2, hu.2.2]
    · refine ⟨_, onTouchEnd_eq t e, ?_⟩
      rw [(views_cons_preventDefault e _).2.2, hs.2.2]
    · refine ⟨t.readGate ++ if t.gate then [] else Effect.preventDefault e :: [],
        onTouchEnter_eq t e, callbackCalls_gated_tail t e [] rfl⟩
    · exact ⟨_, onTouchLeave_eq t e, rfl⟩
    · exact ⟨_, onTouchCancel_eq t e, callbackCalls_gated_tail t e _ hs.2.2⟩
    · exact ⟨[Effect.preventDefault e], rfl, rfl⟩
  refine ⟨key, ?_, rfl, ?_⟩
  · obtain ⟨rest, h1, h2⟩ := key
    rw [h1, views_callbackEffects_append, h2, List.append_nil]
  · cases m <;> rfl

/-- C9: `consumeTouchMove` calls `event.preventDefault` once and does nothing
else, whatever the state of the instance: no collaborator call, no callback
call, no read of a gate flag. -/
theorem consumeTouchMove_only_prevents_default (t : Touch) (e : Event) :
    t.consumeTouchMove e = [Effect.preventDefault e] := rfl

/-- C10: `onTouchEnter` and `onTouchLeave` make no collaborator call.
`onTouchEnter` reads the gate after its callback and calls `preventDefault`
exactly when the gate is false; `onTouchLeave` reads no gate flag and calls
`preventDefault` exactly once. -/
theorem enter_leave_make_no_collaborator_call (t : Touch) (e : Event) :
    collaboratorCalls (t.onTouchEnter e) = [] ∧
      collaboratorCalls (t.onTouchLeave e) = [] ∧
      t.onTouchEnter e = callbackEffects t.touchEnterCallback t.callbackContext e ++
        (t.readGate ++ if t.gate then [] else [Effect.preventDefault e]) ∧
      preventDefaultCalls (t.onTouchEnter e) =
        (if t.gate then [] else [Effect.preventDefault e]) ∧
      t.onTouchLeave e = callbackEffects t.touchLeaveCallback t.callbackContext e ++
        [Effect.preventDefault e] ∧
      preventDefaultCalls (t.onTouchLeave e) = [Effect.preventDefault e] := by
  refine ⟨?_, ?_, onTouchEnter_eq t e, ?_, onTouchLeave_eq t e, ?_⟩
  · rw [onTouchEnter_eq, collaboratorCalls_append, collaboratorCalls_callbackEffects,
      collaboratorCalls_append, collaboratorCalls_readGate]
    cases t.gate <;> rfl
  · rw [onTouchLeave_eq, collaboratorCalls_append, collaboratorCalls_callbackEffects]
    rfl
  · rw [onTouchEnter_eq, preventDefaultCalls_append, preventDefaultCalls_callbackEffects,
      preventDefaultCalls_append, preventDefaultCalls_readGate]
    cases t.gate <;> rfl
  · rw [onTouchLeave_eq, preventDefaultCalls_append, preventDefaultCalls_callbackEffects]
    rfl

/-! ## Listener registry lemmas -/

theorem mem_removeEventListener (ls : List EventListener) (tg : EventTarget) (ty : EventType)
    (cb : Option Closure) (l : EventListener) :
    l ∈ removeEventListener ls tg ty cb ↔
      l ∈ ls ∧ ∀ c, cb = some c → l ≠ EventListener.mk tg ty c false := by
  cases cb with
  | none => simp [removeEventListener]
  | some c => simp [removeEventListener, List.mem_filter]

theorem removeEventListener_append (a b : List EventListener) (tg : EventTarget)
    (ty : EventType) (cb : Option Closure) :
    removeEventListener (a ++ b) tg ty cb =
      removeEventListener a tg ty cb ++ removeEventListener b tg ty cb := by
  cases cb <;> simp [removeEventListener]

theorem removeEventListener_foreign (a : List EventListener) (tg : EventTarget)
    (ty : EventType) (c : Closure) (h : ∀ l ∈ a, l.callback.self ≠ c.self) :
    removeEventListener a tg ty (some c) = a := by
  simp only [removeEventListener]
  rw [List.filter_eq_self]
  intro l hl
  have := h l hl
  simp only [ne_eq, decide_not, Bool.not_eq_true', decide_eq_false_iff_not]
  intro heq
  apply this
  rw [heq]

theorem foreign_of_ownListeners_nil (w : World) (h : ownListeners w = []) :
    ∀ l ∈ w.listeners, l.callback.self ≠ w.touch.ref := by
  intro l hl hself
  have : l ∈ ownListeners w := by
    simp [ownListeners, List.mem_filter, hl, hself]
  rw [h] at this
  exact List.not_mem_nil _ this

theorem ownListeners_eq_nil_of_foreign (w : World)
    (h : ∀ l ∈ w.listeners, l.callback.self ≠ w.touch.ref) : ownListeners w = [] := by
  simp only [ownListeners]
  rw [List.filter_eq_nil_iff]
  intro l hl
  simpa using h l hl

theorem start_listeners (w : World) (hT : w.touch.game.deviceTouch = true)
    (h0 : ownListeners w = []) :
    (Touch.start w).listeners = w.listeners ++ startBindings w.nextFunction w.touch.ref := by
  have hf := foreign_of_ownListeners_nil w h0
  have hnot : ∀ (tg : EventTarget) (ty : EventType) (i : Nat) (m : Method) (cap : Bool),
      EventListener.mk tg ty (Closure.mk i w.touch.ref m) cap ∉ w.listeners := by
    intro tg ty i m cap hmem
    exact hf _ hmem rfl
  simp [Touch.start, hT, addEventListener, hnot, startBindings]

theorem start_touch_ref (w : World) : (Touch.start w).touch.ref = w.touch.ref := by
  unfold Touch.start
  split <;> rfl

theorem start_touch_game (w : World) : (Touch.start w).touch.game = w.touch.game := by
  unfold Touch.start
  split <;> rfl

theorem start_handleBindings (w : World) (hT : w.touch.game.deviceTouch = true) :
    handleBindings (Touch.start w).touch = startBindings w.nextFunction w.touch.ref := by
  simp [Touch.start, hT, handleBindings, startBindings]

theorem stop_touch (w : World) : (Touch.stop w).touch = w.touch := by
  unfold Touch.stop
  split <;> rfl

theorem ownListeners_startBindings (n : Nat) (r : Ref) :
    (startBindings n r).filter (fun l => decide (l.callback.self = r)) = startBindings n r := by
  simp [startBindings]

theorem start_ownListeners (w : World) (hT : w.touch.game.deviceTouch = true)
    (h0 : ownListeners w = []) :
    ownListeners (Touch.start w) = startBindings w.nextFunction w.touch.ref := by
  have h0f : w.listeners.filter (fun l => decide (l.callback.self = w.touch.ref)) = [] := h0
  simp only [ownListeners, start_listeners w hT h0, start_touch_ref, List.filter_append, h0f,
    ownListeners_startBindings, List.nil_append]

theorem start_started (w : World) (hT : w.touch.game.deviceTouch = true)
    (h0 : ownListeners w = []) : Started (Touch.start w) :=
  ⟨w.nextFunction, by rw [start_ownListeners w hT h0, start_touch_ref],
    by rw [start_handleBindings w hT, start_touch_ref]⟩

theorem mem_handleBindings (t : Touch) (l : EventListener) :
    l ∈ handleBindings t ↔
      (∃ c, t._onTouchStart = some c ∧
          l = EventListener.mk EventTarget.canvas EventType.touchstart c false) ∨
      (∃ c, t._onTouchMove = some c ∧
          l = EventListener.mk EventTarget.canvas EventType.touchmove c false) ∨
      (∃ c, t._onTouchEnd = some c ∧
          l = EventListener.mk EventTarget.canvas EventType.touchend c false) ∨
      (∃ c, t._onTouchEnter = some c ∧
          l = EventListener.mk EventTarget.canvas EventType.touchenter c false) ∨
      (∃ c, t._onTouchLeave = some c ∧
          l = EventListener.mk EventTarget.canvas EventType.touchleave c false) ∨
      (∃ c, t._onTouchCancel = some c ∧
          l = EventListener.mk EventTarget.canvas EventType.touchcancel c false) ∨
      (∃ c, t._documentTouchMove = some c ∧
          l = EventListener.mk EventTarget.document EventType.touchmove c false) := by
  simp only [handleBindings, List.mem_filterMap, List.mem_cons, List.mem_singleton,
    List.not_mem_nil, or_false, Option.map_eq_some']
  constructor
  · rintro ⟨x, hx, c, hc, rfl⟩
    rcases hx with rfl | rfl | rfl | rfl | rfl | rfl | rfl
    · exact Or.inl ⟨c, hc, rfl⟩
    · exact Or.inr (Or.inl ⟨c, hc, rfl⟩)
    · exact Or.inr (Or.inr (Or.inl ⟨c, hc, rfl⟩))
    · exact Or.inr (Or.inr (Or.inr (Or.inl ⟨c, hc, rfl⟩)))
    · exact Or.inr (Or.inr (Or.inr (Or.inr (Or.inl ⟨c, hc, rfl⟩))))
    · exact Or.inr (Or.inr (Or.inr (Or.inr (Or.inr (Or.inl ⟨c, hc, rfl⟩)))))
    · exact Or.inr (Or.inr (Or.inr (Or.inr (Or.inr (Or.inr ⟨c, hc, rfl⟩)))))
  · rintro (⟨c, hc, rfl⟩ | ⟨c, hc, rfl⟩ | ⟨c, hc, rfl⟩ | ⟨c, hc, rfl⟩ | ⟨c, hc, rfl⟩ |
      ⟨c, hc, rfl⟩ | ⟨c, hc, rfl⟩)
    · exact ⟨_, Or.inl rfl, c, hc, rfl⟩
    · exact ⟨_, Or.inr (Or.inl rfl), c, hc, rfl⟩
    · exact ⟨_, Or.inr (Or.inr (Or.inl rfl)), c, hc, rfl⟩
    · exact ⟨_, Or.inr (Or.inr (Or.inr (Or.inl rfl))), c, hc, rfl⟩
    · exact ⟨_, Or.inr (Or.inr (Or.inr (Or.inr (Or.inl rfl)))), c, hc, rfl⟩
    · exact ⟨_, Or.inr (Or.inr (Or.inr (Or.inr (Or.inr (Or.inl rfl))))), c, hc, rfl⟩
    · exact ⟨_, Or.inr (Or.inr (Or.inr (Or.inr (Or.inr (Or.inr rfl))))), c, hc, rfl⟩

theorem mem_stop_listeners (w : World) (hT : w.touch.game.deviceTouch = true)
    (l : EventListener) (hl : l ∈ (Touch.stop w).listeners) :
    l ∈ w.listeners ∧ l ∉ handleBindings w.touch := by
  simp only [Touch.stop, hT, if_true, mem_removeEventListener] at hl
  obtain ⟨⟨⟨⟨⟨⟨⟨hmem, h1⟩, h2⟩, h3⟩, h4⟩, h5⟩, h6⟩, h7⟩ := hl
  refine ⟨hmem, ?_⟩
  rw [mem_handleBindings]
  rintro (⟨c, hc, rfl⟩ | ⟨c, hc, rfl⟩ | ⟨c, hc, rfl⟩ | ⟨c, hc, rfl⟩ | ⟨c, hc, rfl⟩ |
    ⟨c, hc, rfl⟩ | ⟨c, hc, rfl⟩)
  · exact h1 c hc rfl
  · exact h2 c hc rfl
  · exact h3 c hc rfl
  · exact h4 c hc rfl
  · exact h5 c hc rfl
  · exact h6 c hc rfl
  · exact h7 c hc rfl

theorem stop_ownListeners_nil (w : World) (hT : w.touch.game.deviceTouch = true)
    (hsub : ∀ l ∈ ownListeners w, l ∈ handleBindings w.touch) :
    ownListeners (Touch.stop w) = [] := by
  apply ownListeners_eq_nil_of_foreign
  intro l hl hself
  obtain ⟨hmem, hnot⟩ := mem_stop_listeners w hT l hl
  apply hnot
  apply hsub
  rw [stop_touch] at hself
  simp [ownListeners, List.mem_filter, hmem, hself]

theorem stop_start_listeners (w : World) (hT : w.touch.game.deviceTouch = true)
    (h0 : ownListeners w = []) : (Touch.stop (Touch.start w)).listeners = w.listeners := by
  have hf := foreign_of_ownListeners_nil w h0
  have hT2 : (Touch.start w).touch.game.deviceTouch = true := by rw [start_touch_game, hT]
  have hrem : ∀ (tg : EventTarget) (ty : EventType) (i : Nat) (m : Method),
      removeEventListener w.listeners tg ty (some (Closure.mk i w.touch.ref m)) =
        w.listeners := by
    intro tg ty i m
    exact removeEventListener_foreign _ _ _ _ hf
  have hl := start_listeners w hT h0
  simp only [Touch.stop, hT2, if_true, hl]
  simp only [Touch.start, hT, if_true, removeEventListener_append, hrem]
  simp [removeEventListener, startBindings]

theorem dispatchEvent_nil (w : World) (h0 : ownListeners w = []) (tg : EventTarget)
    (ty : EventType) (e : Event) : dispatchEvent w tg ty e = [] := by
  have hf := foreign_of_ownListeners_nil w h0
  simp only [dispatchEvent, List.flatMap_eq_nil_iff]
  intro tg2 _ l hl
  have hmem : l ∈ w.listeners := (List.mem_filter.mp hl).1
  simp [Closure.run, hf l hmem]

/-! ## Sequences of `start` and `stop` calls -/

theorem runOps_append (w : World) (r s : List Op) :
    runOps w (r ++ s) = runOps (runOps w r) s := by
  induction r generalizing w with
  | nil => rfl
  | cons op r ih => exact ih (op.apply w)

theorem apply_touch_game (w : World) (op : Op) : (op.apply w).touch.game = w.touch.game := by
  cases op
  · exact start_touch_game w
  · simp [Op.apply, stop_touch]

theorem runOps_touch_game (w : World) (r : List Op) :
    (runOps w r).touch.game = w.touch.game := by
  induction r generalizing w with
  | nil => rfl
  | cons op r ih => exact (ih (op.apply w)).trans (apply_touch_game w op)

theorem noDoubleStart_left (r s : List Op) (h : noDoubleStart (r ++ s) = true) :
    noDoubleStart r = true := by
  induction r with
  | nil => rfl
  | cons op r ih =>
    simp only [List.cons_append, noDoubleStart, Bool.and_eq_true, Bool.not_eq_true',
      Bool.and_eq_false_iff, decide_eq_false_iff_not] at h ⊢
    refine ⟨?_, ih h.2⟩
    rcases h.1 with h1 | h1
    · exact Or.inl h1
    · cases r with
      | nil => exact Or.inr (by simp)
      | cons a r => exact Or.inr (by simpa using h1)

theorem noDoubleStart_snoc_start (r : List Op)
    (h : noDoubleStart (r ++ [Op.start]) = true) : r.getLast? ≠ some Op.start := by
  induction r with
  | nil => simp
  | cons op r ih =>
    simp only [List.cons_append, noDoubleStart, Bool.and_eq_true, Bool.not_eq_true',
      Bool.and_eq_false_iff, decide_eq_false_iff_not] at h
    cases r with
    | nil =>
      rcases h.1 with h1 | h1
      · simpa using h1
      · simp at h1
    | cons a r =>
      have := ih h.2
      simpa [List.getLast?_cons_cons] using this

theorem ownListeners_of_started_or_nil (w : World) (hT : w.touch.game.deviceTouch = true)
    (h : ownListeners w = [] ∨ Started w) : ownListeners (Touch.stop w) = [] := by
  apply stop_ownListeners_nil w hT
  rcases h with h | ⟨n, h1, h2⟩
  · rw [h]
    intro l hl
    exact absurd hl (List.not_mem_nil _)
  · rw [h1, h2]
    exact fun l hl => hl

theorem runOps_invariant (w : World) (hT : w.touch.game.deviceTouch = true)
    (h0 : ownListeners w = []) (r : List Op) (hr : noDoubleStart r = true) :
    ownListeners (runOps w r) = [] ∨
      (Started (runOps w r) ∧ r.getLast? = some Op.start) := by
  induction r using List.reverseRecOn with
  | nil => exact Or.inl h0
  | append_singleton r op ih =>
    have hT2 : (runOps w r).touch.game.deviceTouch = true := by rw [runOps_touch_game, hT]
    have ihr := ih (noDoubleStart_left r [op] hr)
    have hrun : runOps w (r ++ [op]) = op.apply (runOps w r) := by rw [runOps_append]; rfl
    rw [hrun]
    cases op with
    | start =>
      have hlast := noDoubleStart_snoc_start r hr
      rcases ihr with h | ⟨_, h⟩
      · exact Or.inr ⟨start_started _ hT2 h, by simp⟩
      · exact absurd h hlast
    | stop =>
      refine Or.inl (ownListeners_of_started_or_nil _ hT2 ?_)
      rcases ihr with h | ⟨h, _⟩
      · exact Or.inl h
      · exact Or.inr h

/-! ## The claims about `start` and `stop` -/

/-- C5: with `game.device.touch` true and no listener of this instance
registered, `start()` registers the six canvas listeners and the document
'touchmove' listener, and `stop()` removes each of them: the listener lists are
as before `start()`, none of the entries belongs to this instance, and an event
dispatched afterwards produces no effect of this instance. -/
theorem start_then_stop_leaves_no_binding (w : World)
    (hT : w.touch.game.deviceTouch = true) (h0 : ownListeners w = []) :
    ownListeners (Touch.start w) = startBindings w.nextFunction w.touch.ref ∧
      (Touch.stop (Touch.start w)).listeners = w.listeners ∧
      ownListeners (Touch.stop (Touch.start w)) = [] ∧
      ∀ tg ty e, dispatchEvent (Touch.stop (Touch.start w)) tg ty e = [] := by
  have h3 : ownListeners (Touch.stop (Touch.start w)) = [] := by
    have hT2 : (Touch.start w).touch.game.deviceTouch = true := by rw [start_touch_game, hT]
    exact ownListeners_of_started_or_nil _ hT2 (Or.inr (start_started w hT h0))
  exact ⟨start_ownListeners w hT h0, stop_start_listeners w hT h0, h3,
    fun tg ty e => dispatchEvent_nil _ h3 tg ty e⟩

theorem start_then_stop_leaves_no_binding_witness :
    sampleWorld.touch.game.deviceTouch = true ∧ ownListeners sampleWorld = [] ∧
      ownListeners (Touch.start sampleWorld) = startBindings 0 1 ∧
      (Touch.stop (Touch.start sampleWorld)).listeners = [foreignListener] ∧
      ownListeners (Touch.stop (Touch.start sampleWorld)) = [] ∧
      dispatchEvent (Touch.stop (Touch.start sampleWorld)) EventTarget.canvas
        EventType.touchmove sampleEvent = [] :=
  ⟨rfl, by decide,
    (start_then_stop_leaves_no_binding sampleWorld rfl (by decide)).1,
    (start_then_stop_leaves_no_binding sampleWorld rfl (by decide)).2.1,
    (start_then_stop_leaves_no_binding sampleWorld rfl (by decide)).2.2.1,
    (start_then_stop_leaves_no_binding sampleWorld rfl (by decide)).2.2.2 _ _ _⟩

/-- C6, counterexample: on a fresh instance with `game.device.touch` true the
calls `start(); start(); stop()` leave the seven listeners of the first
`start()` registered, so a 'touchstart' dispatched on the canvas afterwards
still reaches `onTouchStart`; before the `stop()` the instance has fourteen
listeners registered. -/
theorem double_start_leaves_stale_listeners :
    sampleWorld.touch.game.deviceTouch = true ∧
      ownListeners sampleWorld = [] ∧
      (ownListeners (runOps sampleWorld [Op.start, Op.start])).length = 14 ∧
      ownListeners (runOps sampleWorld [Op.start, Op.start, Op.stop]) = startBindings 0 1 ∧
      ownListeners (runOps sampleWorld [Op.start, Op.start, Op.stop]) ≠ [] ∧
      dispatchEvent (runOps sampleWorld [Op.start, Op.start, Op.stop]) EventTarget.canvas
          EventType.touchstart sampleEvent =
        [Effect.readInputDisabled, Effect.readDisabled, Effect.preventDefault sampleEvent,
          Effect.startPointer 10, Effect.startPointer 11] := by
  refine ⟨by decide, by decide, by decide, by decide, by decide, ?_⟩
  simp [dispatchEvent, propagationPath, runOps, Op.apply, Touch.start, Touch.stop,
    sampleWorld, World.fresh, Touch.new, sampleGame, addEventListener, removeEventListener,
    foreignListener, Closure.run, Touch.invoke, onTouchStart_eq, callbackEffects,
    Touch.readGate, Touch.gate, sampleEvent]

/-- C6, amended: for every sequence of `start()` and `stop()` calls on one
instance, begun with `game.device.touch` true and no listener of the instance
registered, in which no `start()` directly follows another `start()`: after
every prefix of the sequence the instance has at most one listener per
(target, event type), and immediately after any `stop()` call none of its
listeners remains registered. -/
theorem stop_clears_listeners_without_double_start (w : World)
    (hT : w.touch.game.deviceTouch = true) (h0 : ownListeners w = [])
    (r s : List Op) (hseq : noDoubleStart (r ++ s) = true) :
    (ownSlots (runOps w r)).Nodup ∧
      (r.getLast? = some Op.stop → ownListeners (runOps w r) = []) := by
  have hinv := runOps_invariant w hT h0 r (noDoubleStart_left r s hseq)
  rcases hinv with h | ⟨⟨n, h1, _⟩, hlast⟩
  · exact ⟨by simp [ownSlots, h], fun _ => h⟩
  · refine ⟨?_, ?_⟩
    · simp [ownSlots, h1, startBindings]
    · intro hstop
      rw [hlast] at hstop
      cases hstop

theorem stop_clears_listeners_without_double_start_witness :
    sampleWorld.touch.game.deviceTouch = true ∧ ownListeners sampleWorld = [] ∧
      noDoubleStart ([Op.start, Op.stop, Op.stop, Op.start, Op.stop] ++ [Op.start]) = true ∧
      (ownSlots (runOps sampleWorld [Op.start, Op.stop, Op.stop, Op.start, Op.stop])).Nodup ∧
      ownListeners (runOps sampleWorld [Op.start, Op.stop, Op.stop, Op.start, Op.stop]) = [] :=
  ⟨rfl, by decide, by decide,
    (stop_clears_listeners_without_double_start sampleWorld rfl (by decide)
      [Op.start, Op.stop, Op.stop, Op.start, Op.stop] [Op.start] (by decide)).1,
    (stop_clears_listeners_without_double_start sampleWorld rfl (by decide)
      [Op.start, Op.stop, Op.stop, Op.start, Op.stop] [Op.start] (by decide)).2 rfl⟩

/-- C7: on a freshly constructed instance, whatever the game and the listener
lists are, `stop()` leaves the listener lists and every field of the instance
unchanged, and calling it any number of times in a row gives the result of
calling it once. -/
theorem stop_without_start_changes_nothing (ref : Ref) (game : Game)
    (ls : List EventListener) (n k : Nat) :
    Touch.stop (World.fresh ref game ls n) = World.fresh ref game ls n ∧
      Touch.stop^[k + 1] (World.fresh ref game ls n) =
        Touch.stop (World.fresh ref game ls n) := by
  have h1 : Touch.stop (World.fresh ref game ls n) = World.fresh ref game ls n := by
    cases hg : game.deviceTouch <;>
      simp [Touch.stop, World.fresh, Touch.new, removeEventListener, hg]
  refine ⟨h1, ?_⟩
  induction k with
  | zero => rfl
  | succ k ih =>
    rw [Function.iterate_succ_apply, h1, ih]
    exact h1

end Phaser
